import Mathlib

/-!
Verification of the opencode-websearch plugin's provider/model resolution
policy, provider directory scanner, active-model tracker, dispatcher error
handling and response normalization.

The definitions below are a shallow embedding of the TypeScript sources:
  - `src/constants.ts` : the shared constants
  - `src/config.ts`    : provider directory scanning (`resolveFromProviders`)
  - `src/index.ts`     : resolution policy (`resolveSearchProvider`), the
                         `chat.message` hook and the tool `execute` body
  - `src/providers/anthropic.ts`, `src/providers/openai.ts` : response
                         processing and error formatting
  - the legacy single-provider plugin variant (its `execute` body carries
    the allowed/blocked domain validation)

JavaScript dynamic values that the code inspects (`unknown` option bags)
are modelled by `JsValue`; JavaScript falsiness of optional strings
(`undefined` and `""` are falsy) is modelled explicitly where the source
relies on it (`!accumulated.lockedModel`, `resolutions.anthropic?.lockedModel`).
-/

-- ── Constants (src/constants.ts) ──────────────────────────────────────

def ANTHROPIC_NPM_PACKAGE : String := "@ai-sdk/anthropic"

def OPENAI_NPM_PACKAGE : String := "@ai-sdk/openai"

def EMPTY_LENGTH : Nat := 0

def MIN_QUERY_LENGTH : Nat := 2

def WEBSEARCH_ALWAYS : String := "always"

def WEBSEARCH_AUTO : String := "auto"

-- ── Shared types (src/types.ts) ───────────────────────────────────────

/-- `ProviderType` from types.ts: which upstream API family a resolution
belongs to. -/
inductive ProviderType where
  | anthropic
  | openai
  deriving DecidableEq, Repr

/-- `ProviderCredentials` from types.ts. -/
structure ProviderCredentials where
  apiKey : String
  baseURL : Option String
  deriving DecidableEq, Repr

/-- `SearchConfig` from types.ts: credentials plus the model to use. -/
structure SearchConfig where
  apiKey : String
  baseURL : Option String
  model : String
  deriving DecidableEq, Repr

/-- `ProviderResolution` from types.ts (fields in source order). -/
structure ProviderResolution where
  credentials : ProviderCredentials
  fallbackModel : Option String
  lockedModel : Option String
  providerType : ProviderType
  deriving DecidableEq, Repr

/-- `ProviderResolutionMap` from types.ts: optional entry per family. -/
structure ProviderResolutionMap where
  anthropic : Option ProviderResolution
  openai : Option ProviderResolution
  deriving DecidableEq, Repr

/-- Indexing `resolutions[activeType]` from index.ts. -/
def ProviderResolutionMap.get (m : ProviderResolutionMap) : ProviderType → Option ProviderResolution
  | .anthropic => m.anthropic
  | .openai => m.openai

/-- `ActiveModel` from types.ts. -/
structure ActiveModel where
  modelID : String
  providerID : String
  deriving DecidableEq, Repr

/-- `SearchHit` from types.ts: one title+URL search result. -/
structure SearchHit where
  title : String
  url : String
  deriving DecidableEq, Repr

/-- One element of `StructuredSearchResponse.results`: `SearchHit[] | string`. -/
inductive SearchSegment where
  | hits (l : List SearchHit)
  | text (s : String)
  deriving DecidableEq, Repr

/-- `StructuredSearchResponse` from types.ts. -/
structure StructuredSearchResponse where
  query : String
  results : List SearchSegment
  deriving DecidableEq, Repr

-- ── Dynamic provider records (the `unknown` option bags) ──────────────

/-- A JavaScript value sitting in an `unknown`-typed option bag.  The code
only distinguishes strings (compared against known literals) from
everything else, so a few representative shapes suffice. -/
inductive JsValue where
  | str (s : String)
  | boolVal (b : Bool)
  | numVal (n : Int)
  deriving DecidableEq, Repr

/-- The `options` record of one model (config.ts reads only `websearch`). -/
structure ModelOptions where
  websearch : Option JsValue
  deriving DecidableEq, Repr

/-- One model inside `ProviderData.models` (config.ts: `api.npm`, `id`,
`options`).  `npm` is `model.api.npm`. -/
structure ModelData where
  npm : String
  id : String
  options : ModelOptions
  deriving DecidableEq, Repr

/-- The `options` record of one provider (config.ts reads `apiKey`,
`baseURL`). -/
structure ProviderOptions where
  apiKey : Option JsValue
  baseURL : Option JsValue
  deriving DecidableEq, Repr

/-- `ProviderData` from config.ts.  `models` is `Object.values(provider.models)`
in its insertion order. -/
structure ProviderData where
  id : String
  key : Option String
  models : List ModelData
  options : ProviderOptions
  deriving DecidableEq, Repr

-- ── Helpers (src/config.ts) ───────────────────────────────────────────

/-- `detectProviderType` from config.ts: match the model's API shape
identifier against the two supported npm packages. -/
def detectProviderType (npm : String) : Option ProviderType :=
  if npm = ANTHROPIC_NPM_PACKAGE then some .anthropic
  else if npm = OPENAI_NPM_PACKAGE then some .openai
  else none

/-- `getWebsearchOption` from config.ts: the `websearch` model option when
it is exactly the string `"always"` or `"auto"`; strict equality, so a
non-string value never matches. -/
def getWebsearchOption (o : ModelOptions) : Option String :=
  match o.websearch with
  | some (.str s) => if s = WEBSEARCH_ALWAYS ∨ s = WEBSEARCH_AUTO then some s else none
  | _ => none

/-- `normalizeBaseURL` from config.ts / helpers.ts:
`url.replace(/\/v1\/?$/, "")` — strip one trailing `/v1` segment, with or
without a final slash. -/
def normalizeBaseURL (url : String) : String :=
  if "/v1/".data <:+ url.data then String.mk (url.data.take (url.data.length - 4))
  else if "/v1".data <:+ url.data then String.mk (url.data.take (url.data.length - 3))
  else url

/-- `extractApiKey` from config.ts: `options.apiKey` when it is a string. -/
def extractApiKey (o : ProviderOptions) : Option String :=
  match o.apiKey with
  | some (.str s) => some s
  | _ => none

/-- `extractBaseURL` from config.ts: `options.baseURL`, normalized, when it
is a string. -/
def extractBaseURL (o : ProviderOptions) : Option String :=
  match o.baseURL with
  | some (.str s) => some (normalizeBaseURL s)
  | _ => none

/-- `extractCredentials` from config.ts: `provider.key ?? extractApiKey(options)`;
the result is dropped when the key is missing or the empty string
(`if (!apiKey) return null` — `""` is falsy in JavaScript). -/
def extractCredentials (p : ProviderData) : Option ProviderCredentials :=
  let apiKey := match p.key with
    | some k => some k
    | none => extractApiKey p.options
  match apiKey with
  | some k => if k = "" then none else some ⟨k, extractBaseURL p.options⟩
  | none => none

-- ── Scan state (src/config.ts) ────────────────────────────────────────

/-- `ScanResult` from config.ts: the per-family accumulator. -/
structure ScanResult where
  credentials : Option ProviderCredentials
  fallbackModel : Option String
  lockedModel : Option String
  deriving DecidableEq, Repr

/-- `ScanState` from config.ts: one accumulator per family. -/
structure ScanState where
  anthropic : ScanResult
  openai : ScanResult
  deriving DecidableEq, Repr

/-- Projection of `state[pt]`. -/
def ScanState.get (s : ScanState) : ProviderType → ScanResult
  | .anthropic => s.anthropic
  | .openai => s.openai

/-- JavaScript falsiness of an optional string: `undefined` and `""` are
falsy, any other string is truthy. -/
def falsyOpt : Option String → Bool
  | none => true
  | some s => s = ""

/-- The body of `processProviderModel` acting on the owning family's
accumulator: record credentials when none yet, record the model id under
`lockedModel` / `fallbackModel` when tagged and the slot is still falsy
(`!accumulated.lockedModel`, `!accumulated.fallbackModel`). -/
def scanStep (provider : ProviderData) (model : ModelData) (acc : ScanResult) : ScanResult :=
  let creds := if acc.credentials.isNone then extractCredentials provider else acc.credentials
  let opt := getWebsearchOption model.options
  let locked := if opt = some WEBSEARCH_ALWAYS ∧ falsyOpt acc.lockedModel then some model.id
    else acc.lockedModel
  let fallback := if opt = some WEBSEARCH_AUTO ∧ falsyOpt acc.fallbackModel then some model.id
    else acc.fallbackModel
  { credentials := creds, fallbackModel := fallback, lockedModel := locked }

/-- `processProviderModel` from config.ts: dispatch the model to its
family's accumulator; models of unrecognized families are skipped. -/
def processProviderModel (provider : ProviderData) (model : ModelData) (state : ScanState) :
    ScanState :=
  match detectProviderType model.npm with
  | none => state
  | some .anthropic => { state with anthropic := scanStep provider model state.anthropic }
  | some .openai => { state with openai := scanStep provider model state.openai }

/-- `scanProviderModels` from config.ts: fold over the provider's models in
order. -/
def scanProviderModels (provider : ProviderData) (state : ScanState) : ScanState :=
  provider.models.foldl (fun st m => processProviderModel provider m st) state

/-- `buildResolution` from config.ts: a family resolution exists only when
credentials were found. -/
def buildResolution (scan : ScanResult) (pt : ProviderType) : Option ProviderResolution :=
  match scan.credentials with
  | none => none
  | some c =>
    some { credentials := c, fallbackModel := scan.fallbackModel,
           lockedModel := scan.lockedModel, providerType := pt }

/-- The initial scan state: `{ anthropic: { credentials: null }, openai: { credentials: null } }`. -/
def initScanState : ScanState :=
  ⟨{ credentials := none, fallbackModel := none, lockedModel := none },
   { credentials := none, fallbackModel := none, lockedModel := none }⟩

/-- `resolveFromProviders` from config.ts: scan all providers in list
order, then keep only families that found credentials. -/
def resolveFromProviders (providers : List ProviderData) : ProviderResolutionMap :=
  let st := providers.foldl (fun s p => scanProviderModels p s) initScanState
  { anthropic := buildResolution st.anthropic .anthropic,
    openai := buildResolution st.openai .openai }

-- ── Error formatting (src/config.ts) ──────────────────────────────────

/-- `formatNoProviderError` from config.ts. -/
def formatNoProviderError : String :=
  "Error: web-search requires an Anthropic or OpenAI provider.

No supported provider with a valid API key was found in your opencode.json configuration.

To fix this, add an Anthropic or OpenAI provider to your opencode.json:

\x7b
  \"provider\": \x7b
    \"anthropic\": \x7b
      \"options\": \x7b
        \"apiKey\": \"\x7benv:ANTHROPIC_API_KEY\x7d\"
      \x7d
    \x7d
  \x7d
\x7d

Or:

\x7b
  \"provider\": \x7b
    \"openai\": \x7b
      \"options\": \x7b
        \"apiKey\": \"\x7benv:OPENAI_API_KEY\x7d\"
      \x7d
    \x7d
  \x7d
\x7d

Steps:
1. Open your opencode.json (project root, .opencode/, or ~/.config/opencode/)
2. Ensure you have an Anthropic or OpenAI provider configured with a valid API key
3. Restart OpenCode to pick up the configuration change"

/-- `formatUnsupportedProviderError` from config.ts. -/
def formatUnsupportedProviderError (activeModelID : String) : String :=
  "Error: your current model (" ++ activeModelID ++ ") does not support web search.

Web search requires an Anthropic or OpenAI model.

You can either:
1. Switch to a supported model (e.g. claude-sonnet-4-5 or gpt-4o)
2. Set `\"websearch\": \"auto\"` on a supported model to use it as a fallback:

\x7b
  \"provider\": \x7b
    \"anthropic\": \x7b
      \"models\": \x7b
        \"claude-sonnet-4-5\": \x7b
          \"options\": \x7b
            \"websearch\": \"auto\"
          \x7d
        \x7d
      \x7d
    \x7d
  \x7d
\x7d

Or set `\"websearch\": \"always\"` to always use that model for web search regardless of your active model."

-- ── Provider detection (src/index.ts) ─────────────────────────────────

/-- `detectActiveProviderType` from index.ts: look the active model id up
in the full provider directory and classify its family by API shape; a
matching id with an unrecognized npm package is skipped and scanning
continues. -/
def detectActiveProviderType (active : Option ActiveModel) (providers : List ProviderData) :
    Option ProviderType :=
  match active with
  | none => none
  | some a =>
    providers.findSome? fun p =>
      p.models.findSome? fun m =>
        if m.id ≠ a.modelID then none
        else if m.npm = ANTHROPIC_NPM_PACKAGE then some .anthropic
        else if m.npm = OPENAI_NPM_PACKAGE then some .openai
        else none

-- ── Model resolution (src/index.ts) ───────────────────────────────────

/-- `ResolvedProvider` from index.ts. -/
structure ResolvedProvider where
  config : SearchConfig
  providerType : ProviderType
  deriving DecidableEq, Repr

/-- `buildSearchConfig` from index.ts. -/
def buildSearchConfig (resolution : ProviderResolution) (modelID : String) : SearchConfig :=
  { apiKey := resolution.credentials.apiKey,
    baseURL := resolution.credentials.baseURL,
    model := modelID }

/-- The truthiness test `resolutions.x?.lockedModel` of index.ts: the
entry must exist and its `lockedModel` must be a non-empty string. -/
def lockedModelOf : Option ProviderResolution → Option (ProviderResolution × String)
  | some r =>
    (match r.lockedModel with
     | some s => if s = "" then none else some (r, s)
     | none => none)
  | none => none

/-- The truthiness test `resolutions.x?.fallbackModel` of index.ts. -/
def fallbackModelOf : Option ProviderResolution → Option (ProviderResolution × String)
  | some r =>
    (match r.fallbackModel with
     | some s => if s = "" then none else some (r, s)
     | none => none)
  | none => none

/-- `resolveLockedModel` from index.ts: first truthy `lockedModel` in the
fixed order anthropic, then openai. -/
def resolveLockedModel (m : ProviderResolutionMap) : Option ResolvedProvider :=
  match lockedModelOf m.anthropic with
  | some (r, s) => some ⟨buildSearchConfig r s, .anthropic⟩
  | none =>
    match lockedModelOf m.openai with
    | some (r, s) => some ⟨buildSearchConfig r s, .openai⟩
    | none => none

/-- `resolveActiveModel` from index.ts: passthrough of the active model
when its family has an entry in the resolution map. -/
def resolveActiveModel (activeType : ProviderType) (active : ActiveModel)
    (m : ProviderResolutionMap) : Option ResolvedProvider :=
  match m.get activeType with
  | none => none
  | some r => some ⟨buildSearchConfig r active.modelID, activeType⟩

/-- `resolveFallbackModel` from index.ts: first truthy `fallbackModel` in
the fixed order anthropic, then openai. -/
def resolveFallbackModel (m : ProviderResolutionMap) : Option ResolvedProvider :=
  match fallbackModelOf m.anthropic with
  | some (r, s) => some ⟨buildSearchConfig r s, .anthropic⟩
  | none =>
    match fallbackModelOf m.openai with
    | some (r, s) => some ⟨buildSearchConfig r s, .openai⟩
    | none => none

/-- `resolveSearchProvider` from index.ts: locked model, then active-model
passthrough (only when both the detected type and the active model are
present), then fallback. -/
def resolveSearchProvider (m : ProviderResolutionMap) (active : Option ActiveModel)
    (activeType : Option ProviderType) : Option ResolvedProvider :=
  match resolveLockedModel m with
  | some locked => some locked
  | none =>
    match activeType, active with
    | some t, some a =>
      (match resolveActiveModel t a m with
       | some resolved => some resolved
       | none => resolveFallbackModel m)
    | _, _ => resolveFallbackModel m

/-- `hasAnyProvider` from index.ts. -/
def hasAnyProvider (m : ProviderResolutionMap) : Bool :=
  m.anthropic.isSome || m.openai.isSome

-- ── Provider error formatting and response processing ─────────────────

/-- A value thrown during dispatch, as the `catch` blocks classify it:
an SDK `APIError` (message and status), any other `Error` (message), or a
non-`Error` throwable (modelled by its `String(error)` rendering). -/
inductive ThrownValue where
  | apiError (message : String) (status : Nat)
  | jsError (message : String)
  | nonError (stringified : String)
  deriving DecidableEq, Repr

namespace Anthropic

/-- `WebSearchResult` from providers/anthropic.ts. -/
structure WebSearchResult where
  title : String
  url : String
  deriving DecidableEq, Repr

/-- The `content` of a `web_search_tool_result` block: a result array or
an error object. -/
inductive ToolResultContent where
  | results (rs : List WebSearchResult)
  | resultError (error_code : String)
  deriving DecidableEq, Repr

/-- `ContentBlock` from providers/anthropic.ts. -/
inductive ContentBlock where
  | text (s : String)
  | serverToolUse (id : String) (query : String) (name : String)
  | webSearchToolResult (content : ToolResultContent) (tool_use_id : String)
  deriving DecidableEq, Repr

/-- `processBlock` from providers/anthropic.ts: trimmed non-empty text
becomes a text segment, a result array becomes a hit list (one hit per
raw result, mapped in order), a tool-result error becomes a text segment,
anything else is dropped. -/
def processBlock : ContentBlock → Option SearchSegment
  | .text s =>
    if s.trim.length > EMPTY_LENGTH then some (.text s.trim) else none
  | .webSearchToolResult (.results rs) _ =>
    some (.hits (rs.map fun sr => { title := sr.title, url := sr.url }))
  | .webSearchToolResult (.resultError code) _ =>
    some (.text ("Web search error: " ++ code))
  | .serverToolUse _ _ _ => none

/-- `processResponseBlocks` from providers/anthropic.ts. -/
def processResponseBlocks (query : String) (content : List ContentBlock) :
    StructuredSearchResponse :=
  { query := query, results := content.filterMap processBlock }

/-- `formatErrorMessage` from providers/anthropic.ts. -/
def formatErrorMessage : ThrownValue → String
  | .apiError msg status =>
    "Anthropic API error: " ++ msg ++ " (status: " ++ toString status ++ ")"
  | .jsError msg => "Error performing web search: " ++ msg
  | .nonError s => "Error performing web search: " ++ s

end Anthropic

namespace OpenAI

/-- One element of `ResponseOutputText.annotations`; the code keeps only
`url_citation` entries (title + url) and skips every other shape. -/
inductive AnnItem where
  | urlCitation (title url : String)
  | otherAnn
  deriving DecidableEq, Repr

/-- One element of a message's `content` array: `output_text` with its
citation entries, or any other part kind. -/
inductive OutputPart where
  | outputText (text : String) (anns : List AnnItem)
  | otherPart
  deriving DecidableEq, Repr

/-- One element of `response.output`: a `message` item or any other item
kind. -/
inductive OutputItem where
  | message (content : List OutputPart)
  | otherItem
  deriving DecidableEq, Repr

/-- The loop body of `extractCitations` from providers/openai.ts: skip
non-citations and already-seen URLs; otherwise record the URL as seen and
push the hit. -/
def citeStep (st : List String × List SearchHit) : AnnItem → List String × List SearchHit
  | .urlCitation title url =>
    if url ∈ st.1 then st else (st.1 ++ [url], st.2 ++ [{ title := title, url := url }])
  | .otherAnn => st

/-- `extractCitations` from providers/openai.ts, with the mutable
`seen`/`hits` pair made explicit. -/
def extractCitations (anns : List AnnItem) (st : List String × List SearchHit) :
    List String × List SearchHit :=
  anns.foldl citeStep st

/-- The per-part step of `collectCitations`: only `output_text` parts with
a non-empty annotation list feed `extractCitations`. -/
def processPart (st : List String × List SearchHit) : OutputPart → List String × List SearchHit
  | .outputText _ anns =>
    if anns.length > EMPTY_LENGTH then extractCitations anns st else st
  | .otherPart => st

/-- The per-item step of `collectCitations`: only `message` items are
walked. -/
def processItem (st : List String × List SearchHit) : OutputItem → List String × List SearchHit
  | .message content => content.foldl processPart st
  | .otherItem => st

/-- `collectCitations` from providers/openai.ts: one shared `seen` set and
`hits` list across the whole response. -/
def collectCitations (items : List OutputItem) : List SearchHit :=
  (items.foldl processItem ([], [])).2

/-- `buildStructuredResponse` from providers/openai.ts. -/
def buildStructuredResponse (query : String) (outputText : String) (items : List OutputItem) :
    StructuredSearchResponse :=
  let results :=
    (if outputText.length > EMPTY_LENGTH then [SearchSegment.text outputText] else []) ++
    (let citations := collectCitations items
     if citations.length > EMPTY_LENGTH then [SearchSegment.hits citations] else [])
  { query := query, results := results }

/-- `formatErrorMessage` from providers/openai.ts. -/
def formatErrorMessage : ThrownValue → String
  | .apiError msg status =>
    "OpenAI API error: " ++ msg ++ " (status: " ++ toString status ++ ")"
  | .jsError msg => "Error performing web search: " ++ msg
  | .nonError s => "Error performing web search: " ++ s

end OpenAI

-- ── Search dispatch and the tool execute body (src/index.ts) ──────────

/-- `dispatchErrorMessage` from index.ts: route the thrown value to the
resolved provider's formatter. -/
def dispatchErrorMessage (providerType : ProviderType) (error : ThrownValue) : String :=
  match providerType with
  | .anthropic => Anthropic.formatErrorMessage error
  | .openai => OpenAI.formatErrorMessage error

/-- The outcome of the awaited provider call inside the `try` block:
either a result string or a thrown value. -/
inductive DispatchOutcome where
  | success (result : String)
  | thrown (e : ThrownValue)
  deriving DecidableEq, Repr

/-- `active?.modelID ?? "unknown"` from the execute body. -/
def activeModelLabel : Option ActiveModel → String
  | some a => a.modelID
  | none => "unknown"

/-- The body of the tool's `execute` in index.ts, after the lazily
memoized provider state has been resolved: bail out with the no-provider
message, resolve, bail out with the unsupported-model message, then
dispatch; a thrown value is caught and formatted, never re-raised. -/
def executeToolCall (resolutions : ProviderResolutionMap) (providers : List ProviderData)
    (active : Option ActiveModel) (outcome : DispatchOutcome) : String :=
  if !hasAnyProvider resolutions then formatNoProviderError
  else
    let activeType := detectActiveProviderType active providers
    match resolveSearchProvider resolutions active activeType with
    | none => formatUnsupportedProviderError (activeModelLabel active)
    | some resolved =>
      match outcome with
      | .success result => result
      | .thrown e => dispatchErrorMessage resolved.providerType e

-- ── Active-model tracker (src/index.ts, chat.message hook) ────────────

/-- The model carried by a `chat.message` hook input. -/
structure HookModel where
  modelID : String
  providerID : String
  deriving DecidableEq, Repr

/-- The `chat.message` handler from index.ts acting on the `activeModels`
table (modelled as a map from session id to entry): when the event
carries a model, overwrite that session's entry; otherwise leave the
table untouched. -/
def chatMessageUpdate (table : String → Option ActiveModel) (sessionID : String)
    (model : Option HookModel) : String → Option ActiveModel :=
  match model with
  | some m => fun sid =>
    if sid = sessionID then some { modelID := m.modelID, providerID := m.providerID }
    else table sid
  | none => table

-- ── Legacy single-provider plugin variant ─────────────────────────────

namespace Legacy

/-- `AnthropicConfig` from the legacy single-file plugin variant. -/
structure AnthropicConfig where
  apiKey : String
  baseURL : Option String
  model : String
  deriving DecidableEq, Repr

/-- `ConfigResult` from the legacy variant. -/
structure ConfigResult where
  config : Option AnthropicConfig
  error : Option String
  deriving DecidableEq, Repr

/-- The tool arguments of the legacy variant: optional domain filters,
optional `max_uses`, and the query. -/
structure SearchArgs where
  allowed_domains : Option (List String)
  blocked_domains : Option (List String)
  max_uses : Option Nat
  query : String
  deriving DecidableEq, Repr

/-- `formatConfigError` from the legacy variant. -/
def formatConfigError (error : Option String) : String :=
  let hint := match error with
    | some e => "\n\n" ++ e
    | none => ""
  "Error: web-search requires an Anthropic API key.

Set the ANTHROPIC_API_KEY environment variable, or add an Anthropic provider to your opencode.json:

\x7b
  \"provider\": \x7b
    \"anthropic\": \x7b
      \"npm\": \"@ai-sdk/anthropic\",
      \"options\": \x7b
        \"apiKey\": \"\x7benv:ANTHROPIC_API_KEY\x7d\"
      \x7d,
      \"models\": \x7b
        \"claude-sonnet-4-5\": \x7b \"name\": \"Claude Sonnet 4.5\" \x7d
      \x7d
    \x7d
  \x7d
\x7d" ++ hint

/-- What the legacy `execute` body does with a request: return a plain
message without contacting the provider, or hand the config and arguments
to `executeSearch` (the one network call). -/
inductive ExecuteOutcome where
  | message (text : String)
  | upstreamSearch (config : AnthropicConfig) (args : SearchArgs)
  deriving DecidableEq, Repr

/-- The legacy `execute` body: missing config returns the config error;
a request with both domain filters returns the mutual-exclusion error
before the provider call; otherwise the search is dispatched.  (Arrays
are truthy in JavaScript even when empty, so presence alone triggers the
check.) -/
def execute (cr : ConfigResult) (args : SearchArgs) : ExecuteOutcome :=
  match cr.config with
  | none => .message (formatConfigError cr.error)
  | some config =>
    if args.allowed_domains.isSome ∧ args.blocked_domains.isSome then
      .message "Error: Cannot specify both allowed_domains and blocked_domains."
    else
      .upstreamSearch config args

end Legacy

-- ── Reference functions for the scanner's behaviour ───────────────────

/-- First-some choice on options (JavaScript `??` on non-null objects). -/
def orO {α : Type} : Option α → Option α → Option α
  | some x, _ => some x
  | none, b => b

/-- A provider has at least one model of the given family. -/
def hasFamilyModel (f : ProviderType) (p : ProviderData) : Bool :=
  p.models.any fun m => decide (detectProviderType m.npm = some f)

/-- What one provider contributes to a family's credentials: its
extracted credentials, but only when it owns a model of the family
(extraction is attempted while scanning such a model). -/
def provCred (f : ProviderType) (p : ProviderData) : Option ProviderCredentials :=
  if hasFamilyModel f p then extractCredentials p else none

/-- The credentials the scan records for a family: those of the first
provider, in list order, that has a model of the family and yields
credentials. -/
def firstFamilyCredentials (f : ProviderType) : List ProviderData → Option ProviderCredentials
  | [] => none
  | p :: ps => orO (provCred f p) (firstFamilyCredentials f ps)

/-- The ids of a model list's members that belong to the family and carry
the given `websearch` tag, in list order. -/
def tagIdsOfModels (f : ProviderType) (tag : String) (ms : List ModelData) : List String :=
  (ms.filter fun m =>
    decide (detectProviderType m.npm = some f) && decide (getWebsearchOption m.options = some tag)).map
    (·.id)

/-- All tagged model ids of a family across the provider list, in
provider order then model order. -/
def allTagIds (f : ProviderType) (tag : String) : List ProviderData → List String
  | [] => []
  | p :: ps => tagIdsOfModels f tag p.models ++ allTagIds f tag ps

/-- The accumulator step for a tagged slot: record the id while the slot
is JavaScript-falsy (`undefined` or `""`), keep it otherwise. -/
def tagStep (acc : Option String) (id : String) : Option String :=
  if falsyOpt acc then some id else acc

/-- Fold `tagStep` over a list of tagged ids. -/
def foldTag (acc : Option String) (ids : List String) : Option String :=
  ids.foldl tagStep acc

-- ── Scanner characterization lemmas ───────────────────────────────────

theorem orO_none_right {α : Type} (a : Option α) : orO a none = a := by
  cases a <;> rfl

theorem orO_self_right {α : Type} (a b : Option α) : orO (orO a b) b = orO a b := by
  cases a <;> cases b <;> rfl

theorem orO_assoc {α : Type} (a b c : Option α) : orO (orO a b) c = orO a (orO b c) := by
  cases a <;> cases b <;> rfl

theorem scanStep_credentials (p : ProviderData) (m : ModelData) (acc : ScanResult) :
    (scanStep p m acc).credentials = orO acc.credentials (extractCredentials p) := by
  cases h : acc.credentials <;> simp [scanStep, h, orO]

theorem scanStep_lockedModel (p : ProviderData) (m : ModelData) (acc : ScanResult) :
    (scanStep p m acc).lockedModel =
      if getWebsearchOption m.options = some WEBSEARCH_ALWAYS
      then tagStep acc.lockedModel m.id else acc.lockedModel := by
  by_cases h : getWebsearchOption m.options = some WEBSEARCH_ALWAYS <;>
    simp [scanStep, tagStep, h]

theorem scanStep_fallbackModel (p : ProviderData) (m : ModelData) (acc : ScanResult) :
    (scanStep p m acc).fallbackModel =
      if getWebsearchOption m.options = some WEBSEARCH_AUTO
      then tagStep acc.fallbackModel m.id else acc.fallbackModel := by
  by_cases h : getWebsearchOption m.options = some WEBSEARCH_AUTO <;>
    simp [scanStep, tagStep, h]

theorem processProviderModel_get (p : ProviderData) (m : ModelData) (s : ScanState)
    (f : ProviderType) :
    (processProviderModel p m s).get f =
      if detectProviderType m.npm = some f then scanStep p m (s.get f) else s.get f := by
  unfold processProviderModel
  cases h : detectProviderType m.npm with
  | none => cases f <;> simp [ScanState.get, h]
  | some pt => cases pt <;> cases f <;> simp [ScanState.get, h]

theorem modelsFold_credentials (p : ProviderData) (f : ProviderType) :
    ∀ (ms : List ModelData) (s : ScanState),
      ((ms.foldl (fun st m => processProviderModel p m st) s).get f).credentials =
        orO ((s.get f).credentials)
          (if ms.any (fun m => decide (detectProviderType m.npm = some f))
           then extractCredentials p else none) := by
  intro ms
  induction ms with
  | nil => intro s; simp [orO_none_right]
  | cons m ms ih =>
    intro s
    rw [List.foldl_cons, ih]
    by_cases h : detectProviderType m.npm = some f
    · rw [processProviderModel_get, if_pos h, scanStep_credentials]
      have hany : ((m :: ms).any fun m => decide (detectProviderType m.npm = some f)) = true := by
        simp [h]
      rw [hany, if_pos rfl]
      by_cases hrest : (ms.any fun m => decide (detectProviderType m.npm = some f)) = true
      · rw [if_pos hrest, orO_self_right]
      · rw [if_neg hrest, orO_none_right]
    · rw [processProviderModel_get, if_neg h]
      have hany : ((m :: ms).any fun m => decide (detectProviderType m.npm = some f)) =
          (ms.any fun m => decide (detectProviderType m.npm = some f)) := by
        simp [h]
      rw [hany]

theorem modelsFold_lockedModel (p : ProviderData) (f : ProviderType) :
    ∀ (ms : List ModelData) (s : ScanState),
      ((ms.foldl (fun st m => processProviderModel p m st) s).get f).lockedModel =
        foldTag ((s.get f).lockedModel) (tagIdsOfModels f WEBSEARCH_ALWAYS ms) := by
  intro ms
  induction ms with
  | nil => intro s; simp [foldTag, tagIdsOfModels]
  | cons m ms ih =>
    intro s
    rw [List.foldl_cons, ih]
    by_cases h : detectProviderType m.npm = some f
    · rw [processProviderModel_get, if_pos h, scanStep_lockedModel]
      by_cases ht : getWebsearchOption m.options = some WEBSEARCH_ALWAYS
      · rw [if_pos ht]
        simp [tagIdsOfModels, h, ht, foldTag]
      · rw [if_neg ht]
        simp [tagIdsOfModels, h, ht]
    · rw [processProviderModel_get, if_neg h]
      simp [tagIdsOfModels, h]

theorem modelsFold_fallbackModel (p : ProviderData) (f : ProviderType) :
    ∀ (ms : List ModelData) (s : ScanState),
      ((ms.foldl (fun st m => processProviderModel p m st) s).get f).fallbackModel =
        foldTag ((s.get f).fallbackModel) (tagIdsOfModels f WEBSEARCH_AUTO ms) := by
  intro ms
  induction ms with
  | nil => intro s; simp [foldTag, tagIdsOfModels]
  | cons m ms ih =>
    intro s
    rw [List.foldl_cons, ih]
    by_cases h : detectProviderType m.npm = some f
    · rw [processProviderModel_get, if_pos h, scanStep_fallbackModel]
      by_cases ht : getWebsearchOption m.options = some WEBSEARCH_AUTO
      · rw [if_pos ht]
        simp [tagIdsOfModels, h, ht, foldTag]
      · rw [if_neg ht]
        simp [tagIdsOfModels, h, ht]
    · rw [processProviderModel_get, if_neg h]
      simp [tagIdsOfModels, h]

theorem scanProviderModels_credentials (p : ProviderData) (s : ScanState) (f : ProviderType) :
    ((scanProviderModels p s).get f).credentials =
      orO ((s.get f).credentials) (provCred f p) := by
  rw [scanProviderModels, modelsFold_credentials, provCred, hasFamilyModel]

theorem scanProviderModels_lockedModel (p : ProviderData) (s : ScanState) (f : ProviderType) :
    ((scanProviderModels p s).get f).lockedModel =
      foldTag ((s.get f).lockedModel) (tagIdsOfModels f WEBSEARCH_ALWAYS p.models) := by
  rw [scanProviderModels, modelsFold_lockedModel]

theorem scanProviderModels_fallbackModel (p : ProviderData) (s : ScanState) (f : ProviderType) :
    ((scanProviderModels p s).get f).fallbackModel =
      foldTag ((s.get f).fallbackModel) (tagIdsOfModels f WEBSEARCH_AUTO p.models) := by
  rw [scanProviderModels, modelsFold_fallbackModel]

theorem foldTag_append (acc : Option String) (l1 l2 : List String) :
    foldTag acc (l1 ++ l2) = foldTag (foldTag acc l1) l2 := by
  simp [foldTag, List.foldl_append]

theorem providersFold_credentials (f : ProviderType) :
    ∀ (provs : List ProviderData) (s : ScanState),
      ((provs.foldl (fun st q => scanProviderModels q st) s).get f).credentials =
        orO ((s.get f).credentials) (firstFamilyCredentials f provs) := by
  intro provs
  induction provs with
  | nil => intro s; simp [firstFamilyCredentials, orO_none_right]
  | cons p ps ih =>
    intro s
    rw [List.foldl_cons, ih, scanProviderModels_credentials, firstFamilyCredentials, orO_assoc]

theorem providersFold_lockedModel (f : ProviderType) :
    ∀ (provs : List ProviderData) (s : ScanState),
      ((provs.foldl (fun st q => scanProviderModels q st) s).get f).lockedModel =
        foldTag ((s.get f).lockedModel) (allTagIds f WEBSEARCH_ALWAYS provs) := by
  intro provs
  induction provs with
  | nil => intro s; simp [allTagIds, foldTag]
  | cons p ps ih =>
    intro s
    rw [List.foldl_cons, ih, scanProviderModels_lockedModel, allTagIds, foldTag_append]

theorem providersFold_fallbackModel (f : ProviderType) :
    ∀ (provs : List ProviderData) (s : ScanState),
      ((provs.foldl (fun st q => scanProviderModels q st) s).get f).fallbackModel =
        foldTag ((s.get f).fallbackModel) (allTagIds f WEBSEARCH_AUTO provs) := by
  intro provs
  induction provs with
  | nil => intro s; simp [allTagIds, foldTag]
  | cons p ps ih =>
    intro s
    rw [List.foldl_cons, ih, scanProviderModels_fallbackModel, allTagIds, foldTag_append]

/-- Full characterization of the scanner: a family entry exists exactly
when some provider contributed credentials, and then it pairs the
first-found credentials with the tagged-model slots accumulated across
all providers of the family. -/
theorem resolveFromProviders_get (provs : List ProviderData) (f : ProviderType) :
    (resolveFromProviders provs).get f =
      match firstFamilyCredentials f provs with
      | none => none
      | some c =>
        some { credentials := c,
               fallbackModel := foldTag none (allTagIds f WEBSEARCH_AUTO provs),
               lockedModel := foldTag none (allTagIds f WEBSEARCH_ALWAYS provs),
               providerType := f } := by
  have hinitc : (initScanState.get f).credentials = none := by cases f <;> rfl
  have hinitl : (initScanState.get f).lockedModel = none := by cases f <;> rfl
  have hinitf : (initScanState.get f).fallbackModel = none := by cases f <;> rfl
  have hc : ((provs.foldl (fun st q => scanProviderModels q st) initScanState).get f).credentials
      = firstFamilyCredentials f provs := by
    rw [providersFold_credentials, hinitc]; rfl
  have hl : ((provs.foldl (fun st q => scanProviderModels q st) initScanState).get f).lockedModel
      = foldTag none (allTagIds f WEBSEARCH_ALWAYS provs) := by
    rw [providersFold_lockedModel, hinitl]
  have hf : ((provs.foldl (fun st q => scanProviderModels q st) initScanState).get f).fallbackModel
      = foldTag none (allTagIds f WEBSEARCH_AUTO provs) := by
    rw [providersFold_fallbackModel, hinitf]
  have hg : (resolveFromProviders provs).get f =
      buildResolution ((provs.foldl (fun st q => scanProviderModels q st) initScanState).get f)
        f := by
    cases f <;> rfl
  rw [hg]
  unfold buildResolution
  rw [hc, hl, hf]

theorem orO_none_left {α : Type} (b : Option α) : orO none b = b := rfl

theorem orO_isSome {α : Type} (a b : Option α) : (orO a b).isSome = (a.isSome || b.isSome) := by
  cases a <;> cases b <;> rfl

theorem provCred_isSome (f : ProviderType) (p : ProviderData) :
    (provCred f p).isSome = (hasFamilyModel f p && (extractCredentials p).isSome) := by
  by_cases h : hasFamilyModel f p = true <;> simp [provCred, h]

theorem firstFamilyCredentials_isSome (f : ProviderType) :
    ∀ provs : List ProviderData,
      (firstFamilyCredentials f provs).isSome = true ↔
        ∃ p ∈ provs, hasFamilyModel f p = true ∧ (extractCredentials p).isSome = true := by
  intro provs
  induction provs with
  | nil => simp [firstFamilyCredentials]
  | cons p ps ih =>
    simp only [firstFamilyCredentials, orO_isSome, Bool.or_eq_true, provCred_isSome,
      Bool.and_eq_true, ih, List.mem_cons]
    constructor
    · rintro (⟨h1, h2⟩ | ⟨q, hq, h1, h2⟩)
      · exact ⟨p, Or.inl rfl, h1, h2⟩
      · exact ⟨q, Or.inr hq, h1, h2⟩
    · rintro ⟨q, hmem, h1, h2⟩
      rcases hmem with rfl | hq
      · exact Or.inl ⟨h1, h2⟩
      · exact Or.inr ⟨q, hq, h1, h2⟩

theorem firstFamilyCredentials_find (f : ProviderType) :
    ∀ (provs : List ProviderData) (q : ProviderData),
      provs.find? (fun p => hasFamilyModel f p && (extractCredentials p).isSome) = some q →
      firstFamilyCredentials f provs = extractCredentials q := by
  intro provs
  induction provs with
  | nil => intro q h; simp at h
  | cons p ps ih =>
    intro q h
    by_cases hp : (hasFamilyModel f p && (extractCredentials p).isSome) = true
    · rw [List.find?_cons_of_pos
        (p := fun r => hasFamilyModel f r && (extractCredentials r).isSome) ps hp] at h
      cases h
      obtain ⟨h1, h2⟩ : hasFamilyModel f p = true ∧ (extractCredentials p).isSome = true := by
        simpa using hp
      show orO (provCred f p) (firstFamilyCredentials f ps) = extractCredentials p
      rw [provCred, if_pos h1]
      cases hx : extractCredentials p with
      | none => rw [hx] at h2; simp at h2
      | some c => rfl
    · rw [List.find?_cons_of_neg
        (p := fun r => hasFamilyModel f r && (extractCredentials r).isSome) ps hp] at h
      have hrest := ih q h
      have hnone : provCred f p = none := by
        cases hpc : provCred f p with
        | none => rfl
        | some c =>
          exfalso
          apply hp
          rw [← provCred_isSome, hpc]
          rfl
      show orO (provCred f p) (firstFamilyCredentials f ps) = extractCredentials q
      rw [hnone, orO_none_left, hrest]

theorem foldTag_not_falsy :
    ∀ (ids : List String) (acc : Option String), falsyOpt acc = false → foldTag acc ids = acc := by
  intro ids
  induction ids with
  | nil => intro acc _; rfl
  | cons i ids ih =>
    intro acc h
    have hs : tagStep acc i = acc := by simp [tagStep, h]
    calc foldTag acc (i :: ids) = foldTag (tagStep acc i) ids := rfl
    _ = foldTag acc ids := by rw [hs]
    _ = acc := ih acc h

theorem foldTag_nonempty_head (ids : List String) (h : ∀ i ∈ ids, i ≠ "") :
    foldTag none ids = ids.head? := by
  cases ids with
  | nil => rfl
  | cons i ids =>
    have h1 : i ≠ "" := h i (by simp)
    have hstep : foldTag none (i :: ids) = foldTag (some i) ids := by
      show foldTag (tagStep none i) ids = _
      simp [tagStep, falsyOpt]
    rw [hstep, foldTag_not_falsy ids (some i) (by simp [falsyOpt, h1])]
    rfl

theorem allTagIds_mem (f : ProviderType) (tag : String) :
    ∀ (provs : List ProviderData) (i : String), i ∈ allTagIds f tag provs →
      ∃ p ∈ provs, ∃ m ∈ p.models, m.id = i := by
  intro provs
  induction provs with
  | nil => intro i hi; simp [allTagIds] at hi
  | cons p ps ih =>
    intro i hi
    simp only [allTagIds, List.mem_append] at hi
    rcases hi with hi | hi
    · simp only [tagIdsOfModels, List.mem_map] at hi
      obtain ⟨m, hm, rfl⟩ := hi
      exact ⟨p, List.mem_cons_self p ps, m, List.mem_of_mem_filter hm, rfl⟩
    · obtain ⟨q, hq, m, hm, rfl⟩ := ih i hi
      exact ⟨q, List.mem_cons_of_mem p hq, m, hm, rfl⟩

-- ── Reference functions for citation deduplication ────────────────────

/-- All `url_citation` hits of an annotation list, in order, with no
deduplication. -/
def annCitationHits : List OpenAI.AnnItem → List SearchHit
  | [] => []
  | .urlCitation t u :: rest => ⟨t, u⟩ :: annCitationHits rest
  | .otherAnn :: rest => annCitationHits rest

/-- The citation hits contributed by one output part. -/
def partCitationHits : OpenAI.OutputPart → List SearchHit
  | .outputText _ anns => annCitationHits anns
  | .otherPart => []

/-- The citation hits contributed by a list of output parts. -/
def partsCitationHits : List OpenAI.OutputPart → List SearchHit
  | [] => []
  | part :: rest => partCitationHits part ++ partsCitationHits rest

/-- The citation hits contributed by one output item. -/
def itemCitationHits : OpenAI.OutputItem → List SearchHit
  | .message content => partsCitationHits content
  | .otherItem => []

/-- All citation hits of a whole response, in traversal order. -/
def allCitationHits : List OpenAI.OutputItem → List SearchHit
  | [] => []
  | item :: rest => itemCitationHits item ++ allCitationHits rest

/-- Keep-first deduplication by URL, relative to a set of already-seen
URLs: a hit is dropped exactly when its URL was seen before it, so the
first occurrence of each URL (and its title) survives. -/
def dedupByURL (seen : List String) : List SearchHit → List SearchHit
  | [] => []
  | h :: t =>
    if h.url ∈ seen then dedupByURL seen t
    else h :: dedupByURL (seen ++ [h.url]) t

theorem extractCitations_spec :
    ∀ (anns : List OpenAI.AnnItem) (st : List String × List SearchHit),
      OpenAI.extractCitations anns st =
        (st.1 ++ (dedupByURL st.1 (annCitationHits anns)).map SearchHit.url,
         st.2 ++ dedupByURL st.1 (annCitationHits anns)) := by
  intro anns
  induction anns with
  | nil => intro st; simp [OpenAI.extractCitations, annCitationHits, dedupByURL]
  | cons a rest ih =>
    intro st
    cases a with
    | otherAnn =>
      have hstep : OpenAI.extractCitations (.otherAnn :: rest) st =
          OpenAI.extractCitations rest st := rfl
      rw [hstep, ih]
      rfl
    | urlCitation t u =>
      by_cases hmem : u ∈ st.1
      · have hstep : OpenAI.extractCitations (.urlCitation t u :: rest) st =
            OpenAI.extractCitations rest st := by
          show OpenAI.extractCitations rest (OpenAI.citeStep st (.urlCitation t u)) = _
          rw [show OpenAI.citeStep st (.urlCitation t u) = st from by
            simp [OpenAI.citeStep, hmem]]
        rw [hstep, ih]
        have hd : dedupByURL st.1 (annCitationHits (.urlCitation t u :: rest)) =
            dedupByURL st.1 (annCitationHits rest) := by
          show dedupByURL st.1 (⟨t, u⟩ :: annCitationHits rest) = _
          simp [dedupByURL, hmem]
        rw [hd]
      · have hstep : OpenAI.extractCitations (.urlCitation t u :: rest) st =
            OpenAI.extractCitations rest (st.1 ++ [u], st.2 ++ [⟨t, u⟩]) := by
          show OpenAI.extractCitations rest (OpenAI.citeStep st (.urlCitation t u)) = _
          rw [show OpenAI.citeStep st (.urlCitation t u) = (st.1 ++ [u], st.2 ++ [⟨t, u⟩]) from by
            simp [OpenAI.citeStep, hmem]]
        rw [hstep, ih]
        have hd : dedupByURL st.1 (annCitationHits (.urlCitation t u :: rest)) =
            ⟨t, u⟩ :: dedupByURL (st.1 ++ [u]) (annCitationHits rest) := by
          show dedupByURL st.1 (⟨t, u⟩ :: annCitationHits rest) = _
          simp [dedupByURL, hmem]
        rw [hd]
        simp [List.append_assoc]

theorem dedupByURL_append :
    ∀ (l1 l2 : List SearchHit) (seen : List String),
      dedupByURL seen (l1 ++ l2) =
        dedupByURL seen l1 ++
          dedupByURL (seen ++ (dedupByURL seen l1).map SearchHit.url) l2 := by
  intro l1
  induction l1 with
  | nil => intro l2 seen; simp [dedupByURL]
  | cons h t ih =>
    intro l2 seen
    by_cases hm : h.url ∈ seen
    · simp [dedupByURL, hm, ih]
    · simp [dedupByURL, hm, ih, List.append_assoc]

theorem processPart_spec :
    ∀ (part : OpenAI.OutputPart) (st : List String × List SearchHit),
      OpenAI.processPart st part =
        (st.1 ++ (dedupByURL st.1 (partCitationHits part)).map SearchHit.url,
         st.2 ++ dedupByURL st.1 (partCitationHits part)) := by
  intro part st
  cases part with
  | otherPart => simp [OpenAI.processPart, partCitationHits, dedupByURL]
  | outputText txt anns =>
    by_cases hlen : anns.length > EMPTY_LENGTH
    · have : OpenAI.processPart st (.outputText txt anns) = OpenAI.extractCitations anns st := by
        simp [OpenAI.processPart, hlen]
      rw [this]
      exact extractCitations_spec anns st
    · have hnil : anns = [] := by
        cases anns with
        | nil => rfl
        | cons a rest => exact absurd (by simp [EMPTY_LENGTH]) hlen
      subst hnil
      simp [OpenAI.processPart, partCitationHits, annCitationHits, dedupByURL, EMPTY_LENGTH]

theorem partsFold_spec :
    ∀ (parts : List OpenAI.OutputPart) (st : List String × List SearchHit),
      parts.foldl OpenAI.processPart st =
        (st.1 ++ (dedupByURL st.1 (partsCitationHits parts)).map SearchHit.url,
         st.2 ++ dedupByURL st.1 (partsCitationHits parts)) := by
  intro parts
  induction parts with
  | nil => intro st; simp [partsCitationHits, dedupByURL]
  | cons part rest ih =>
    intro st
    rw [List.foldl_cons, processPart_spec, ih]
    have hparts : partsCitationHits (part :: rest) =
        partCitationHits part ++ partsCitationHits rest := rfl
    rw [hparts, dedupByURL_append]
    simp [List.map_append, List.append_assoc]

theorem processItem_spec :
    ∀ (item : OpenAI.OutputItem) (st : List String × List SearchHit),
      OpenAI.processItem st item =
        (st.1 ++ (dedupByURL st.1 (itemCitationHits item)).map SearchHit.url,
         st.2 ++ dedupByURL st.1 (itemCitationHits item)) := by
  intro item st
  cases item with
  | otherItem => simp [OpenAI.processItem, itemCitationHits, dedupByURL]
  | message content =>
    have : OpenAI.processItem st (.message content) = content.foldl OpenAI.processPart st := rfl
    rw [this, partsFold_spec]
    rfl

theorem itemsFold_spec :
    ∀ (items : List OpenAI.OutputItem) (st : List String × List SearchHit),
      items.foldl OpenAI.processItem st =
        (st.1 ++ (dedupByURL st.1 (allCitationHits items)).map SearchHit.url,
         st.2 ++ dedupByURL st.1 (allCitationHits items)) := by
  intro items
  induction items with
  | nil => intro st; simp [allCitationHits, dedupByURL]
  | cons item rest ih =>
    intro st
    rw [List.foldl_cons, processItem_spec, ih]
    have hitems : allCitationHits (item :: rest) =
        itemCitationHits item ++ allCitationHits rest := rfl
    rw [hitems, dedupByURL_append]
    simp [List.map_append, List.append_assoc]

theorem collectCitations_eq_dedup (items : List OpenAI.OutputItem) :
    OpenAI.collectCitations items = dedupByURL [] (allCitationHits items) := by
  rw [OpenAI.collectCitations, itemsFold_spec]
  simp

-- ── Claim C8: base-URL normalization ──────────────────────────────────

/-- C8: `normalizeBaseURL` maps `"http://host/v1"`, `"http://host/v1/"`
and `"http://host"` all to `"http://host"`; in general a trailing `/v1`
segment — with or without a final slash — is stripped, and a URL without
that suffix is returned unchanged. -/
theorem c8_normalizeBaseURL_strips_v1 :
    normalizeBaseURL "http://host/v1" = "http://host" ∧
    normalizeBaseURL "http://host/v1/" = "http://host" ∧
    normalizeBaseURL "http://host" = "http://host" ∧
    (∀ s : String, normalizeBaseURL (s ++ "/v1") = s) ∧
    (∀ s : String, normalizeBaseURL (s ++ "/v1/") = s) ∧
    (∀ s : String, ¬ ("/v1".data <:+ s.data) → ¬ ("/v1/".data <:+ s.data) →
      normalizeBaseURL s = s) := by
  refine ⟨by decide, by decide, by decide, ?_, ?_, ?_⟩
  · intro s
    have hd : (s ++ "/v1").data = s.data ++ "/v1".data := String.data_append s "/v1"
    have hno : ¬ ("/v1/".data <:+ (s ++ "/v1").data) := by
      rw [hd]
      rintro ⟨t, ht⟩
      have h2 := congrArg List.reverse ht
      simp [List.reverse_append] at h2
    have hyes : "/v1".data <:+ (s ++ "/v1").data := by
      rw [hd]; exact ⟨s.data, rfl⟩
    rw [normalizeBaseURL, if_neg hno, if_pos hyes, hd]
    have h3 : ("/v1".data).length = 3 := rfl
    have hlen : (s.data ++ "/v1".data).length - 3 = s.data.length := by
      rw [List.length_append, h3]; omega
    rw [hlen, List.take_left]
  · intro s
    have hd : (s ++ "/v1/").data = s.data ++ "/v1/".data := String.data_append s "/v1/"
    have hyes : "/v1/".data <:+ (s ++ "/v1/").data := by
      rw [hd]; exact ⟨s.data, rfl⟩
    rw [normalizeBaseURL, if_pos hyes, hd]
    have h4 : ("/v1/".data).length = 4 := rfl
    have hlen : (s.data ++ "/v1/".data).length - 4 = s.data.length := by
      rw [List.length_append, h4]; omega
    rw [hlen, List.take_left]
  · intro s h3 h4
    rw [normalizeBaseURL, if_neg h4, if_neg h3]

/-- Witness for C8 at a concrete unsuffixed URL. -/
theorem c8_witness :
    normalizeBaseURL "https://api.example.com" = "https://api.example.com" :=
  c8_normalizeBaseURL_strips_v1.2.2.2.2.2 "https://api.example.com" (by decide) (by decide)

-- ── Claim C10: chat.message frame conditions ──────────────────────────

/-- C10: a `chat.message` event without a model leaves the active-model
table completely unchanged, and an event for one session never changes
any other session's entry. -/
theorem c10_chat_message_frame :
    ∀ (table : String → Option ActiveModel) (sessionID : String) (model : Option HookModel),
      (model = none → chatMessageUpdate table sessionID model = table) ∧
      (∀ sid, sid ≠ sessionID → chatMessageUpdate table sessionID model sid = table sid) := by
  intro table sessionID model
  constructor
  · rintro rfl; rfl
  · intro sid hne
    cases model with
    | none => rfl
    | some m => simp [chatMessageUpdate, hne]

/-- Witness for C10 at a concrete table, session and event. -/
theorem c10_witness :
    chatMessageUpdate (fun _ => none) "s1" none = (fun _ => none) ∧
    chatMessageUpdate (fun _ => none) "s1" (some ⟨"m1", "p1"⟩) "s2" = none :=
  ⟨(c10_chat_message_frame (fun _ => none) "s1" none).1 rfl,
   (c10_chat_message_frame (fun _ => none) "s1" (some ⟨"m1", "p1"⟩)).2 "s2" (by decide)⟩

-- ── Claim C6: domain filters are mutually exclusive ───────────────────

/-- C6: a request with both `allowed_domains` and `blocked_domains` set
never reaches the upstream provider call; when the configuration is
present the result is exactly the plain-text mutual-exclusion error. -/
theorem c6_domain_filters_mutually_exclusive :
    ∀ (cr : Legacy.ConfigResult) (args : Legacy.SearchArgs),
      args.allowed_domains.isSome = true → args.blocked_domains.isSome = true →
      (∀ config a, Legacy.execute cr args ≠ .upstreamSearch config a) ∧
      (∀ config, cr.config = some config →
        Legacy.execute cr args =
          .message "Error: Cannot specify both allowed_domains and blocked_domains.") := by
  intro cr args ha hb
  constructor
  · intro config a
    cases hc : cr.config with
    | none => simp [Legacy.execute, hc]
    | some cfg => simp [Legacy.execute, hc, ha, hb]
  · intro config hc
    simp [Legacy.execute, hc, ha, hb]

/-- Witness for C6 at a concrete request carrying both filters. -/
theorem c6_witness :
    Legacy.execute ⟨some ⟨"k", none, "claude-sonnet-4-5"⟩, none⟩
        ⟨some ["a.com"], some ["b.com"], none, "test query"⟩ =
      .message "Error: Cannot specify both allowed_domains and blocked_domains." :=
  (c6_domain_filters_mutually_exclusive ⟨some ⟨"k", none, "claude-sonnet-4-5"⟩, none⟩
    ⟨some ["a.com"], some ["b.com"], none, "test query"⟩ rfl rfl).2 _ rfl

-- ── Claim C3: map entry iff credentialed provider of the family ───────

/-- C3: the resolution map has an entry for a family exactly when some
provider in the list has a model of that family and yields extractable
credentials. -/
theorem c3_map_entry_iff_credentialed :
    ∀ (provs : List ProviderData) (f : ProviderType),
      ((resolveFromProviders provs).get f).isSome = true ↔
        ∃ p ∈ provs, hasFamilyModel f p = true ∧ (extractCredentials p).isSome = true := by
  intro provs f
  rw [resolveFromProviders_get, ← firstFamilyCredentials_isSome]
  cases hcc : firstFamilyCredentials f provs <;> simp [hcc]

-- ── Claim C5: dispatch errors always become plain strings ─────────────

/-- C5: the `execute` body always returns a plain string, never
re-raising: with no credentialed provider it returns the corrective
no-provider message; with no resolution it returns the corrective
unsupported-model message; a successful dispatch returns its string; and
every thrown value is rendered — API errors with provider name, message
and status, other `Error`s via their message, non-`Error` throwables via
their stringification. -/
theorem c5_execute_never_raises :
    ∀ (resolutions : ProviderResolutionMap) (providers : List ProviderData)
      (active : Option ActiveModel),
      (∀ outcome, hasAnyProvider resolutions = false →
        executeToolCall resolutions providers active outcome = formatNoProviderError) ∧
      (∀ outcome, hasAnyProvider resolutions = true →
        resolveSearchProvider resolutions active (detectActiveProviderType active providers)
          = none →
        executeToolCall resolutions providers active outcome =
          formatUnsupportedProviderError (activeModelLabel active)) ∧
      (∀ r, hasAnyProvider resolutions = true →
        resolveSearchProvider resolutions active (detectActiveProviderType active providers)
          = some r →
        (∀ s, executeToolCall resolutions providers active (.success s) = s) ∧
        (∀ msg st,
          executeToolCall resolutions providers active (.thrown (.apiError msg st)) =
            (match r.providerType with
             | .anthropic => "Anthropic API error: " ++ msg ++ " (status: " ++ toString st ++ ")"
             | .openai => "OpenAI API error: " ++ msg ++ " (status: " ++ toString st ++ ")")) ∧
        (∀ msg, executeToolCall resolutions providers active (.thrown (.jsError msg)) =
          "Error performing web search: " ++ msg) ∧
        (∀ sv, executeToolCall resolutions providers active (.thrown (.nonError sv)) =
          "Error performing web search: " ++ sv)) := by
  intro resolutions providers active
  refine ⟨?_, ?_, ?_⟩
  · intro outcome h
    simp [executeToolCall, h]
  · intro outcome h hr
    simp [executeToolCall, h, hr]
  · intro r h hr
    refine ⟨?_, ?_, ?_, ?_⟩
    · intro s
      simp [executeToolCall, h, hr]
    · intro msg st
      cases hpt : r.providerType <;>
        simp [executeToolCall, h, hr, dispatchErrorMessage, hpt,
          Anthropic.formatErrorMessage, OpenAI.formatErrorMessage]
    · intro msg
      cases hpt : r.providerType <;>
        simp [executeToolCall, h, hr, dispatchErrorMessage, hpt,
          Anthropic.formatErrorMessage, OpenAI.formatErrorMessage]
    · intro sv
      cases hpt : r.providerType <;>
        simp [executeToolCall, h, hr, dispatchErrorMessage, hpt,
          Anthropic.formatErrorMessage, OpenAI.formatErrorMessage]

/-- Witness for C5: a thrown API error against a concrete anthropic
resolution, and the no-provider path against the empty map. -/
theorem c5_witness :
    executeToolCall ⟨some ⟨⟨"k", none⟩, none, some "lock-model", .anthropic⟩, none⟩ [] none
        (.thrown (.apiError "boom" 500)) = "Anthropic API error: boom (status: 500)" ∧
    executeToolCall ⟨none, none⟩ [] none (.thrown (.jsError "x")) = formatNoProviderError := by
  constructor
  · have h :=
      ((c5_execute_never_raises ⟨some ⟨⟨"k", none⟩, none, some "lock-model", .anthropic⟩, none⟩
          [] none).2.2 ⟨⟨"k", none, "lock-model"⟩, .anthropic⟩ (by decide) (by decide)).2.1
        "boom" 500
    rw [h]
    decide
  · exact ((c5_execute_never_raises ⟨none, none⟩ [] none).1 (.thrown (.jsError "x"))) rfl

-- ── Claim C1: locked-model precedence ─────────────────────────────────

/-- C1 counterexample: the anthropic family of this map has a
`lockedModel` (the empty string is a legal model-id value), and the
active model's family (anthropic) is present and fully credentialed.
The claim predicts the locked model is returned; the code's truthiness
test `resolutions.anthropic?.lockedModel` skips the empty-string locked
model and passes the active model through instead. -/
theorem c1_counterexample :
    (ProviderResolutionMap.anthropic
        ⟨some ⟨⟨"k", none⟩, none, some "", .anthropic⟩, none⟩).map
      ProviderResolution.lockedModel = some (some "") ∧
    resolveSearchProvider ⟨some ⟨⟨"k", none⟩, none, some "", .anthropic⟩, none⟩
        (some ⟨"active-model", "prov"⟩) (some .anthropic) =
      some ⟨⟨"k", none, "active-model"⟩, .anthropic⟩ ∧
    "active-model" ≠ "" := by
  refine ⟨rfl, by decide, by decide⟩

/-- C1 (amended): if a family in the map has a non-empty `lockedModel`,
`resolveSearchProvider` returns that family's locked model and
credentials regardless of the active model and its detected family, even
when the active model's family is present and fully credentialed;
families are scanned in the fixed order anthropic before openai and the
first non-empty `lockedModel` wins. -/
theorem c1_locked_model_precedence :
    ∀ (m : ProviderResolutionMap) (active : Option ActiveModel)
      (activeType : Option ProviderType) (r : ProviderResolution) (lm : String),
      (m.anthropic = some r → r.lockedModel = some lm → lm ≠ "" →
        resolveSearchProvider m active activeType =
          some ⟨⟨r.credentials.apiKey, r.credentials.baseURL, lm⟩, .anthropic⟩) ∧
      (lockedModelOf m.anthropic = none → m.openai = some r → r.lockedModel = some lm →
        lm ≠ "" →
        resolveSearchProvider m active activeType =
          some ⟨⟨r.credentials.apiKey, r.credentials.baseURL, lm⟩, .openai⟩) := by
  intro m active activeType r lm
  constructor
  · intro ha hl hne
    have hlo : lockedModelOf m.anthropic = some (r, lm) := by
      rw [ha]; simp [lockedModelOf, hl, hne]
    simp [resolveSearchProvider, resolveLockedModel, hlo, buildSearchConfig]
  · intro hno ho hl hne
    have hlo : lockedModelOf m.openai = some (r, lm) := by
      rw [ho]; simp [lockedModelOf, hl, hne]
    simp [resolveSearchProvider, resolveLockedModel, hno, hlo, buildSearchConfig]

/-- Witness for C1: the anthropic locked model beats an active openai
model whose family is present and credentialed. -/
theorem c1_witness :
    resolveSearchProvider
        ⟨some ⟨⟨"ka", none⟩, none, some "locked-a", .anthropic⟩,
         some ⟨⟨"ko", none⟩, none, none, .openai⟩⟩
        (some ⟨"gpt-4o", "openai"⟩) (some .openai) =
      some ⟨⟨"ka", none, "locked-a"⟩, .anthropic⟩ :=
  (c1_locked_model_precedence
    ⟨some ⟨⟨"ka", none⟩, none, some "locked-a", .anthropic⟩,
     some ⟨⟨"ko", none⟩, none, none, .openai⟩⟩
    (some ⟨"gpt-4o", "openai"⟩) (some .openai)
    ⟨⟨"ka", none⟩, none, some "locked-a", .anthropic⟩ "locked-a").1 rfl rfl (by decide)

-- ── Claim C2: no passthrough without a map entry ──────────────────────

/-- C2 counterexample: the active model's family (anthropic) is
recognized from the provider directory but absent from the resolution
map, and the openai family carries both a lockedModel and a
fallbackModel.  The claim predicts the first fallbackModel is returned;
the code returns the locked model instead, because locked-model
precedence is evaluated first. -/
theorem c2_counterexample :
    detectActiveProviderType (some ⟨"claude-x", "prov"⟩)
        [⟨"prov", some "ak", [⟨"@ai-sdk/anthropic", "claude-x", ⟨none⟩⟩], ⟨none, none⟩⟩] =
      some .anthropic ∧
    ProviderResolutionMap.get
        ⟨none, some ⟨⟨"k", none⟩, some "fallback-o", some "locked-o", .openai⟩⟩ .anthropic =
      none ∧
    resolveSearchProvider
        ⟨none, some ⟨⟨"k", none⟩, some "fallback-o", some "locked-o", .openai⟩⟩
        (some ⟨"claude-x", "prov"⟩) (some .anthropic) =
      some ⟨⟨"k", none, "locked-o"⟩, .openai⟩ ∧
    some (⟨⟨"k", none, "locked-o"⟩, .openai⟩ : ResolvedProvider) ≠
      some ⟨⟨"k", none, "fallback-o"⟩, .openai⟩ := by
  refine ⟨by decide, rfl, by decide, by decide⟩

/-- C2 (amended): when the active model's family is recognized but has no
entry in the resolution map, the active model is ignored entirely (no
passthrough — the result equals resolution with no active model); and
when additionally no family has a non-empty `lockedModel`, the first
non-empty `fallbackModel` in the fixed order anthropic before openai is
returned, and null when neither family has one. -/
theorem c2_no_passthrough_without_entry :
    ∀ (m : ProviderResolutionMap) (providers : List ProviderData) (a : ActiveModel)
      (t : ProviderType) (r : ProviderResolution) (fm : String),
      detectActiveProviderType (some a) providers = some t →
      m.get t = none →
      (resolveSearchProvider m (some a) (some t) = resolveSearchProvider m none none) ∧
      (lockedModelOf m.anthropic = none → lockedModelOf m.openai = none →
        ((m.anthropic = some r → r.fallbackModel = some fm → fm ≠ "" →
           resolveSearchProvider m (some a) (some t) =
             some ⟨⟨r.credentials.apiKey, r.credentials.baseURL, fm⟩, .anthropic⟩) ∧
         (fallbackModelOf m.anthropic = none → m.openai = some r →
           r.fallbackModel = some fm → fm ≠ "" →
           resolveSearchProvider m (some a) (some t) =
             some ⟨⟨r.credentials.apiKey, r.credentials.baseURL, fm⟩, .openai⟩) ∧
         (fallbackModelOf m.anthropic = none → fallbackModelOf m.openai = none →
           resolveSearchProvider m (some a) (some t) = none))) := by
  intro m providers a t r fm hdet habs
  have hpass : resolveActiveModel t a m = none := by simp [resolveActiveModel, habs]
  constructor
  · cases hlk : resolveLockedModel m with
    | some l => simp [resolveSearchProvider, hlk]
    | none => simp [resolveSearchProvider, hlk, hpass]
  · intro hna hno
    have hlk : resolveLockedModel m = none := by simp [resolveLockedModel, hna, hno]
    refine ⟨?_, ?_, ?_⟩
    · intro ha hf hne
      have hfo : fallbackModelOf m.anthropic = some (r, fm) := by
        rw [ha]; simp [fallbackModelOf, hf, hne]
      simp [resolveSearchProvider, hlk, hpass, resolveFallbackModel, hfo, buildSearchConfig]
    · intro hfa ho hf hne
      have hfo : fallbackModelOf m.openai = some (r, fm) := by
        rw [ho]; simp [fallbackModelOf, hf, hne]
      simp [resolveSearchProvider, hlk, hpass, resolveFallbackModel, hfa, hfo, buildSearchConfig]
    · intro hfa hfb
      simp [resolveSearchProvider, hlk, hpass, resolveFallbackModel, hfa, hfb]

/-- Witness for C2: a recognized-but-uncredentialed anthropic active
model falls through to the openai fallback model. -/
theorem c2_witness :
    resolveSearchProvider ⟨none, some ⟨⟨"k", none⟩, some "gpt-fb", none, .openai⟩⟩
        (some ⟨"claude-x", "prov"⟩) (some .anthropic) =
      some ⟨⟨"k", none, "gpt-fb"⟩, .openai⟩ := by
  have h := c2_no_passthrough_without_entry
    ⟨none, some ⟨⟨"k", none⟩, some "gpt-fb", none, .openai⟩⟩
    [⟨"prov", some "ak", [⟨"@ai-sdk/anthropic", "claude-x", ⟨none⟩⟩], ⟨none, none⟩⟩]
    ⟨"claude-x", "prov"⟩ .anthropic ⟨⟨"k", none⟩, some "gpt-fb", none, .openai⟩ "gpt-fb"
    (by decide) rfl
  exact (h.2 rfl rfl).2.1 rfl rfl rfl (by decide)

-- ── Claim C4: first-seen-wins in the scanner ──────────────────────────

/-- C4 counterexample: one provider with credentials and two models both
tagged `"always"`, the first with the empty string as its id.  The claim
says the first tagged model becomes `lockedModel` and later tagged models
never overwrite it; the code's `!accumulated.lockedModel` test treats the
recorded empty id as unset, so the second tagged model overwrites it. -/
theorem c4_counterexample :
    (resolveFromProviders
        [⟨"prov", some "k",
          [⟨"@ai-sdk/anthropic", "", ⟨some (.str "always")⟩⟩,
           ⟨"@ai-sdk/anthropic", "model-b", ⟨some (.str "always")⟩⟩], ⟨none, none⟩⟩]).anthropic =
      some ⟨⟨"k", none⟩, none, some "model-b", .anthropic⟩ ∧
    tagIdsOfModels .anthropic WEBSEARCH_ALWAYS
        [⟨"@ai-sdk/anthropic", "", ⟨some (.str "always")⟩⟩,
         ⟨"@ai-sdk/anthropic", "model-b", ⟨some (.str "always")⟩⟩] = ["", "model-b"] ∧
    some "model-b" ≠ some "" := by
  refine ⟨by decide, by decide, by decide⟩

/-- C4 (amended): with non-empty model ids, first-seen-wins holds at every
level: the recorded credentials are those of the first provider (in list
order) that has a family model and yields credentials, and the first
`"always"`-tagged and `"auto"`-tagged model ids (in provider order, then
model order) become `lockedModel` and `fallbackModel`; later tagged
models do not overwrite them. -/
theorem c4_first_seen_wins :
    ∀ (provs : List ProviderData) (f : ProviderType),
      (∀ p ∈ provs, ∀ m ∈ p.models, m.id ≠ "") →
      (∀ q, provs.find? (fun p => hasFamilyModel f p && (extractCredentials p).isSome)
          = some q →
        ((resolveFromProviders provs).get f).map ProviderResolution.credentials =
          extractCredentials q) ∧
      (∀ r, (resolveFromProviders provs).get f = some r →
        r.lockedModel = (allTagIds f WEBSEARCH_ALWAYS provs).head? ∧
        r.fallbackModel = (allTagIds f WEBSEARCH_AUTO provs).head?) := by
  intro provs f hids
  have hlock : ∀ i ∈ allTagIds f WEBSEARCH_ALWAYS provs, i ≠ "" := by
    intro i hi
    obtain ⟨p, hp, m, hm, rfl⟩ := allTagIds_mem f WEBSEARCH_ALWAYS provs i hi
    exact hids p hp m hm
  have hfall : ∀ i ∈ allTagIds f WEBSEARCH_AUTO provs, i ≠ "" := by
    intro i hi
    obtain ⟨p, hp, m, hm, rfl⟩ := allTagIds_mem f WEBSEARCH_AUTO provs i hi
    exact hids p hp m hm
  constructor
  · intro q hq
    have hfc := firstFamilyCredentials_find f provs q hq
    have hpred := List.find?_some hq
    obtain ⟨h1, h2⟩ : hasFamilyModel f q = true ∧ (extractCredentials q).isSome = true := by
      simpa using hpred
    rw [resolveFromProviders_get, hfc]
    cases hx : extractCredentials q with
    | none => rw [hx] at h2; simp at h2
    | some c => rfl
  · intro r hr
    rw [resolveFromProviders_get] at hr
    cases hcc : firstFamilyCredentials f provs with
    | none => rw [hcc] at hr; simp at hr
    | some c =>
      rw [hcc] at hr
      injection hr with h
      subst h
      exact ⟨foldTag_nonempty_head _ hlock, foldTag_nonempty_head _ hfall⟩

/-- Witness for C4: two credentialed providers of one family, tagged
models on both; the first provider's credentials and the first tagged
ids win. -/
theorem c4_witness :
    ((resolveFromProviders
        [⟨"p1", some "k1", [⟨"@ai-sdk/anthropic", "m1", ⟨some (.str "always")⟩⟩],
          ⟨none, none⟩⟩,
         ⟨"p2", some "k2",
          [⟨"@ai-sdk/anthropic", "m2", ⟨some (.str "always")⟩⟩,
           ⟨"@ai-sdk/anthropic", "m3", ⟨some (.str "auto")⟩⟩], ⟨none, none⟩⟩]).get
        .anthropic).map ProviderResolution.credentials = some ⟨"k1", none⟩ ∧
    (⟨⟨"k1", none⟩, some "m3", some "m1", .anthropic⟩ : ProviderResolution).lockedModel =
      (allTagIds .anthropic WEBSEARCH_ALWAYS
        [⟨"p1", some "k1", [⟨"@ai-sdk/anthropic", "m1", ⟨some (.str "always")⟩⟩],
          ⟨none, none⟩⟩,
         ⟨"p2", some "k2",
          [⟨"@ai-sdk/anthropic", "m2", ⟨some (.str "always")⟩⟩,
           ⟨"@ai-sdk/anthropic", "m3", ⟨some (.str "auto")⟩⟩], ⟨none, none⟩⟩]).head? ∧
    (⟨⟨"k1", none⟩, some "m3", some "m1", .anthropic⟩ : ProviderResolution).fallbackModel =
      (allTagIds .anthropic WEBSEARCH_AUTO
        [⟨"p1", some "k1", [⟨"@ai-sdk/anthropic", "m1", ⟨some (.str "always")⟩⟩],
          ⟨none, none⟩⟩,
         ⟨"p2", some "k2",
          [⟨"@ai-sdk/anthropic", "m2", ⟨some (.str "always")⟩⟩,
           ⟨"@ai-sdk/anthropic", "m3", ⟨some (.str "auto")⟩⟩], ⟨none, none⟩⟩]).head? := by
  have h := c4_first_seen_wins
    [⟨"p1", some "k1", [⟨"@ai-sdk/anthropic", "m1", ⟨some (.str "always")⟩⟩], ⟨none, none⟩⟩,
     ⟨"p2", some "k2",
      [⟨"@ai-sdk/anthropic", "m2", ⟨some (.str "always")⟩⟩,
       ⟨"@ai-sdk/anthropic", "m3", ⟨some (.str "auto")⟩⟩], ⟨none, none⟩⟩]
    .anthropic (by decide)
  refine ⟨?_, ?_, ?_⟩
  · exact (h.1 ⟨"p1", some "k1", [⟨"@ai-sdk/anthropic", "m1", ⟨some (.str "always")⟩⟩],
      ⟨none, none⟩⟩ (by decide)).trans (by decide)
  · exact (h.2 ⟨⟨"k1", none⟩, some "m3", some "m1", .anthropic⟩ (by decide)).1
  · exact (h.2 ⟨⟨"k1", none⟩, some "m3", some "m1", .anthropic⟩ (by decide)).2

-- ── Claim C9: credentials and tags combine across providers ───────────

/-- C9: a model tagged `"always"` on a provider without extractable
credentials still becomes the family's `lockedModel` when another
provider of the same family supplies credentials: the resulting
resolution pairs the second provider's credentials with the first
provider's tagged model id. -/
theorem c9_credentials_and_tags_combine :
    ∀ (pid1 pid2 key mid1 mid2 : String), key ≠ "" →
      resolveFromProviders
        [⟨pid1, none, [⟨"@ai-sdk/anthropic", mid1, ⟨some (.str "always")⟩⟩], ⟨none, none⟩⟩,
         ⟨pid2, some key, [⟨"@ai-sdk/anthropic", mid2, ⟨none⟩⟩], ⟨none, none⟩⟩] =
      ⟨some ⟨⟨key, none⟩, none, some mid1, .anthropic⟩, none⟩ := by
  intro pid1 pid2 key mid1 mid2 hk
  simp [resolveFromProviders, initScanState, scanProviderModels, processProviderModel,
    detectProviderType, ANTHROPIC_NPM_PACKAGE, OPENAI_NPM_PACKAGE, scanStep,
    getWebsearchOption, WEBSEARCH_ALWAYS, WEBSEARCH_AUTO, extractCredentials, extractApiKey,
    extractBaseURL, falsyOpt, buildResolution, hk]

/-- Witness for C9 at concrete provider and model ids. -/
theorem c9_witness :
    resolveFromProviders
        [⟨"custom-anthropic", none,
          [⟨"@ai-sdk/anthropic", "claude-tagged", ⟨some (.str "always")⟩⟩], ⟨none, none⟩⟩,
         ⟨"anthropic", some "sk-key",
          [⟨"@ai-sdk/anthropic", "claude-plain", ⟨none⟩⟩], ⟨none, none⟩⟩] =
      ⟨some ⟨⟨"sk-key", none⟩, none, some "claude-tagged", .anthropic⟩, none⟩ :=
  c9_credentials_and_tags_combine "custom-anthropic" "anthropic" "sk-key" "claude-tagged"
    "claude-plain" (by decide)

-- ── Claim C7: URL deduplication in response processing ────────────────

/-- The URLs of one normalized result segment. -/
def segmentURLs : SearchSegment → List String
  | .hits l => l.map SearchHit.url
  | .text _ => []

/-- All search-hit URLs of a normalized result list, in order. -/
def allURLs : List SearchSegment → List String
  | [] => []
  | seg :: rest => segmentURLs seg ++ allURLs rest

/-- C7 counterexample: an Anthropic response with the same URL in two
result blocks.  The claim says the normalized output contains that URL
once; the Anthropic processing emits both occurrences. -/
theorem c7_counterexample :
    Anthropic.processResponseBlocks "q"
        [.webSearchToolResult (.results [⟨"title-1", "https://dup.example"⟩]) "id1",
         .webSearchToolResult (.results [⟨"title-2", "https://dup.example"⟩]) "id2"] =
      ⟨"q", [.hits [⟨"title-1", "https://dup.example"⟩],
             .hits [⟨"title-2", "https://dup.example"⟩]]⟩ ∧
    (allURLs (Anthropic.processResponseBlocks "q"
        [.webSearchToolResult (.results [⟨"title-1", "https://dup.example"⟩]) "id1",
         .webSearchToolResult (.results [⟨"title-2", "https://dup.example"⟩]) "id2"]).results).count
      "https://dup.example" = 2 := by
  refine ⟨by decide, by decide⟩

/-- C7 (amended): the OpenAI response processing deduplicates hits by URL
across the whole response, keeping the first-seen title (its collected
citation list is exactly the keep-first-by-URL deduplication of all
citation annotations in traversal order); the Anthropic response
processing performs no URL deduplication — each result block's hits are
emitted one-for-one. -/
theorem c7_dedup_openai_only :
    (∀ items : List OpenAI.OutputItem,
      OpenAI.collectCitations items = dedupByURL [] (allCitationHits items)) ∧
    (∀ (rs : List Anthropic.WebSearchResult) (tid : String),
      Anthropic.processBlock (.webSearchToolResult (.results rs) tid) =
        some (.hits (rs.map fun sr => ⟨sr.title, sr.url⟩))) := by
  exact ⟨collectCitations_eq_dedup, fun rs tid => rfl⟩
